import Mathlib

/-!
Verification model of the spectrocloud-labs/alertmanager-client-go library.

The repository carries three generations of the client:
* the options-based client rooted at `alertmanager.go` / `manager_options.go`
  (struct fields `endpoint`, `authHeader`/`username`/`password`, base
  `labels`/`annotations`, an `*http.Client`), whose `Emit` returns the raw
  HTTP response;
* the `pkg/alertmanager` client whose `Emit` collapses any non-200 status
  into `ErrEmissionFailed`;
* the alert value type with label/annotation maps and optional timestamps.

Go maps are modelled as association lists of write events (`SMap`): a map
write prepends a binding and lookup takes the first match, so the newest
write wins, exactly the observable behaviour of a Go map.  A nilable Go map
(`map[string]string` that may be `nil`) is an `Option SMap`.  Byte slices
are `List Nat` with values below 256.  `time.Time` values are opaque `Int`
instants; `*time.Time` is `Option Int`.
-/

/-- Association-list model of a Go `map[string]string`: the list records map
writes, newest first. -/
abbrev SMap := List (String × String)

/-- Map lookup: first (newest) binding for the key wins. -/
def SMap.find : SMap → String → Option String
  | [], _ => none
  | p :: rest, k => if p.1 = k then some p.2 else SMap.find rest k

/-- Map write `m[k] = v`. -/
def SMap.insert (m : SMap) (k v : String) : SMap := (k, v) :: m

/-- Model of `maps.Copy(dst, src)`: every binding of `src` overrides `dst`;
a `nil` source map contributes nothing.  In the write-event representation
this is list append with the source in front. -/
def SMap.copy (dst : SMap) (src : Option SMap) : SMap := src.getD [] ++ dst

/-- First-of-two option choice, used to phrase merge results. -/
def orElseO (a b : Option String) : Option String :=
  match a with
  | some v => some v
  | none => b

theorem SMap.find_append (m₁ m₂ : SMap) (k : String) :
    SMap.find (m₁ ++ m₂) k = orElseO (SMap.find m₁ k) (SMap.find m₂ k) := by
  induction m₁ with
  | nil => simp [SMap.find, orElseO]
  | cons p rest ih =>
    by_cases h : p.1 = k <;> simp [SMap.find, h, ih, orElseO]

theorem SMap.find_copy (dst : SMap) (src : Option SMap) (k : String) :
    SMap.find (SMap.copy dst src) k = orElseO (SMap.find (src.getD []) k) (SMap.find dst k) := by
  simp [SMap.copy, SMap.find_append]

/-! ## Bytes, UTF-8 and base64 (`encoding/base64` StdEncoding) -/

/-- UTF-8 encoding of one Unicode code point, as Go's `[]byte(string)`
conversion produces. -/
def utf8Bytes (c : Nat) : List Nat :=
  if c < 128 then [c]
  else if c < 2048 then [192 + c / 64, 128 + c % 64]
  else if c < 65536 then [224 + c / 4096, 128 + (c / 64) % 64, 128 + c % 64]
  else [240 + c / 262144, 128 + (c / 4096) % 64, 128 + (c / 64) % 64, 128 + c % 64]

/-- Model of Go's `[]byte(s)`: the UTF-8 bytes of the string. -/
def strBytes (s : String) : List Nat :=
  s.data.foldr (fun c acc => utf8Bytes c.toNat ++ acc) []

/-- The standard base64 alphabet, indexed. -/
def b64Index (n : Nat) : Char :=
  "ABCDEFGHIJKLMNOPQRSTUVWXYZabcdefghijklmnopqrstuvwxyz0123456789+/".data.getD n 'A'

/-- Model of `base64.StdEncoding.EncodeToString` (with padding). -/
def base64Encode : List Nat → String
  | [] => ""
  | [b1] =>
    let n := (b1 % 256) * 65536
    String.mk [b64Index (n / 262144 % 64), b64Index (n / 4096 % 64)] ++ "=="
  | [b1, b2] =>
    let n := (b1 % 256) * 65536 + (b2 % 256) * 256
    String.mk [b64Index (n / 262144 % 64), b64Index (n / 4096 % 64), b64Index (n / 64 % 64)] ++ "="
  | b1 :: b2 :: b3 :: rest =>
    let n := (b1 % 256) * 65536 + (b2 % 256) * 256 + (b3 % 256)
    String.mk [b64Index (n / 262144 % 64), b64Index (n / 4096 % 64), b64Index (n / 64 % 64),
      b64Index (n % 64)] ++ base64Encode rest

example : base64Encode (strBytes "bob" ++ strBytes ":" ++ strBytes "frogs") = "Ym9iOmZyb2dz" := by
  decide

/-! ## HTTP request/response skeleton

Only the parts of `net/http` the library observably configures are kept: the
method, target URL, headers and (typed, unserialized) body of the one POST
request, and the status code of the response. -/

/-- The HTTP request `Emit` builds, with the typed alert payload standing for
its JSON serialization (a JSON array in alert order). -/
structure HTTPRequest (β : Type) where
  method : String
  url : String
  headers : List (String × String)
  body : β
deriving DecidableEq, Repr

/-- The part of `*http.Response` the library inspects. -/
structure HTTPResponse where
  status : Nat
deriving DecidableEq, Repr

/-! ## Model of `net/url` parsing (the subset the library exercises)

`WithEndpoint` and `WithProxyURL` call `url.Parse`.  The model below follows
Go's `net/url` `Parse` for absolute and relative URLs: scheme detection,
optional `//authority` with userinfo split and port validation, path, query
and fragment cut-offs, and the `URL.String` reconstruction used after the
path is stripped.  Percent-escaping and userinfo validation are not
modelled; none of the library's behaviour depends on them. -/

namespace neturl

structure URL where
  Scheme : String := ""
  Opaque : String := ""
  User : Option String := none
  Host : String := ""
  Path : String := ""
  RawQuery : String := ""
  Fragment : String := ""
  OmitHost : Bool := false
deriving DecidableEq, Repr

def isAlpha (c : Char) : Bool :=
  ('a' ≤ c ∧ c ≤ 'z') ∨ ('A' ≤ c ∧ c ≤ 'Z')

def isDigit (c : Char) : Bool := '0' ≤ c ∧ c ≤ '9'

def lowerChar (c : Char) : Char :=
  if 'A' ≤ c ∧ c ≤ 'Z' then Char.ofNat (c.toNat + 32) else c

def lowerStr (l : List Char) : String := String.mk (l.map lowerChar)

/-- Go `getScheme`: `.ok none` means no scheme (the whole input is the rest),
`.ok (some (scheme, rest))` splits at the first colon, `.error` is the
"missing protocol scheme" case (colon first). -/
def findScheme : List Char → List Char → Except String (Option (List Char × List Char))
  | _, [] => .ok none
  | seen, c :: rest =>
    if isAlpha c then findScheme (seen ++ [c]) rest
    else if isDigit c ∨ c = '+' ∨ c = '-' ∨ c = '.' then
      if seen = [] then .ok none else findScheme (seen ++ [c]) rest
    else if c = ':' then
      if seen = [] then .error "missing protocol scheme"
      else .ok (some (seen, rest))
    else .ok none

/-- Cut a char list at the first occurrence of `sep`; `none` if absent. -/
def cutFirst : List Char → Char → List Char × Option (List Char)
  | [], _ => ([], none)
  | c :: rest, sep =>
    if c = sep then ([], some rest)
    else
      let r := cutFirst rest sep
      (c :: r.1, r.2)

/-- Split at the first occurrence of `stop`, keeping `stop` in the tail. -/
def spanUntil : List Char → Char → List Char × List Char
  | [], _ => ([], [])
  | c :: rest, stop =>
    if c = stop then ([], c :: rest)
    else
      let r := spanUntil rest stop
      (c :: r.1, r.2)

def lastIndexOf (l : List Char) (c : Char) : Option Nat :=
  match l with
  | [] => none
  | x :: rest =>
    match lastIndexOf rest c with
    | some i => some (i + 1)
    | none => if x = c then some 0 else none

def listStartsWith : List Char → List Char → Bool
  | [], _ => true
  | _ :: _, [] => false
  | p :: ps, c :: cs => if p = c then listStartsWith ps cs else false

/-- Go `stringContainsCTLByte`. -/
def hasCtl (l : List Char) : Bool :=
  l.any (fun c => c.toNat < 32 ∨ c.toNat = 127)

/-- Go `validOptionalPort`: empty, or a colon followed by digits only. -/
def validOptionalPort : List Char → Bool
  | [] => true
  | c :: rest => if c = ':' then rest.all isDigit else false

/-- Go `parseHost` restricted to the bracket check and port validation
(percent-unescaping of the host is not modelled). -/
def parseHost (h : List Char) : Except String String :=
  if listStartsWith ['['] h then
    match lastIndexOf h ']' with
    | none => .error "missing close bracket in host"
    | some i =>
      if validOptionalPort (h.drop (i + 1)) then .ok (String.mk h)
      else .error "invalid port"
  else
    match lastIndexOf h ':' with
    | none => .ok (String.mk h)
    | some i =>
      if validOptionalPort (h.drop i) then .ok (String.mk h)
      else .error "invalid port"

/-- Go `parseAuthority`: userinfo before the last at-sign, then the host
(userinfo character validation is not modelled). -/
def parseAuthority (a : List Char) : Except String (Option String × String) :=
  match lastIndexOf a '@' with
  | none =>
    match parseHost a with
    | .error e => .error e
    | .ok h => .ok (none, h)
  | some i =>
    match parseHost (a.drop (i + 1)) with
    | .error e => .error e
    | .ok h => .ok (some (String.mk (a.take i)), h)

def optStr : Option (List Char) → String
  | none => ""
  | some l => String.mk l

/-- Go `url.parse` with `viaRequest = false`, after the fragment has been
removed: control-byte check, scheme split, query cut, then either an opaque
part, the colon-in-first-segment error, an authority, or a bare path. -/
def parseAfterFragment (s : List Char) : Except String URL :=
  if hasCtl s then .error "invalid control character in URL"
  else
    match findScheme [] s with
    | .error e => .error e
    | .ok res =>
      let scheme : String := match res with | none => "" | some p => lowerStr p.1
      let rest0 : List Char := match res with | none => s | some p => p.2
      let q := cutFirst rest0 '?'
      let rest := q.1
      let rawQuery := optStr q.2
      if ¬ listStartsWith ['/'] rest ∧ scheme ≠ "" then
        .ok { Scheme := scheme, Opaque := String.mk rest, RawQuery := rawQuery }
      else if ¬ listStartsWith ['/'] rest ∧ scheme = "" ∧ (cutFirst rest '/').1.contains ':' then
        .error "first path segment in URL cannot contain colon"
      else if (scheme ≠ "" ∨ ¬ listStartsWith ['/', '/', '/'] rest)
          ∧ listStartsWith ['/', '/'] rest then
        let sp := spanUntil (rest.drop 2) '/'
        match parseAuthority sp.1 with
        | .error e => .error e
        | .ok uh =>
          .ok { Scheme := scheme, User := uh.1, Host := uh.2,
                Path := String.mk sp.2, RawQuery := rawQuery }
      else
        .ok { Scheme := scheme, Path := String.mk rest, RawQuery := rawQuery,
              OmitHost := scheme ≠ "" }

/-- Go `url.Parse`: split the fragment off first, then parse the rest. -/
def Parse (rawURL : String) : Except String URL :=
  let cut := cutFirst rawURL.data '#'
  match parseAfterFragment cut.1 with
  | .error e => .error e
  | .ok u =>
    match cut.2 with
    | none => .ok u
    | some f => .ok { u with Fragment := String.mk f }

/-- Go `URL.String` (no percent re-escaping, no ForceQuery). -/
def URL.toStr (u : URL) : String :=
  (if u.Scheme ≠ "" then u.Scheme ++ ":" else "")
  ++ (if u.Opaque ≠ "" then u.Opaque
      else
        (if (u.Scheme ≠ "" ∨ u.Host ≠ "" ∨ u.User ≠ none)
            ∧ ¬ (u.OmitHost ∧ u.Host = "" ∧ u.User = none) then
          (if u.Host ≠ "" ∨ u.Path ≠ "" ∨ u.User ≠ none then "//" else "")
          ++ (match u.User with | some ui => ui ++ "@" | none => "")
          ++ u.Host
        else "")
        ++ (if u.Path ≠ "" ∧ ¬ u.Path.startsWith "/" ∧ u.Host ≠ "" then "/" else "")
        ++ u.Path)
  ++ (if u.RawQuery ≠ "" then "?" ++ u.RawQuery else "")
  ++ (if u.Fragment ≠ "" then "#" ++ u.Fragment else "")

example : Parse "http://host:9093/some/path"
    = .ok { Scheme := "http", Host := "host:9093", Path := "/some/path" } := rfl

example : Parse "alertmanager:9093"
    = .ok { Scheme := "alertmanager", Opaque := "9093" } := rfl

example : Parse "http://" = .ok { Scheme := "http" } := rfl

example : Parse "_not_valid_" = .ok { Path := "_not_valid_" } := rfl

example : Parse "://invalid" = .error "missing protocol scheme" := rfl

example : URL.toStr { Scheme := "http", Host := "host:9093" } = "http://host:9093" := rfl

end neturl

/-! ## Transport and TLS configuration model

`crypto/tls.Config`, `x509.CertPool`, `http.Transport` and `http.Client`
restricted to the fields the options touch.  A `nil` transport (or a
non-`*http.Transport` round tripper, which the type assertions also reject)
is `none`. -/

/-- Model of `tls.VersionTLS10` .. `tls.VersionTLS13`. -/
def tls10 : Nat := 769
def tls11 : Nat := 770
def tls12 : Nat := 771
def tls13 : Nat := 772

/-- The `TLSVersion` type of `manager_options.go` (a `uint16`). -/
abbrev TLSVersion := Nat

/-- An `x509.CertPool`, as the list of PEM blobs appended to it.
`AppendCertsFromPEM` parses and may silently drop malformed input; the model
keeps the raw blob, which is enough to track which pool is installed. -/
structure CertPool where
  certs : List (List Nat)
deriving DecidableEq, Repr

def CertPool.appendPEM (p : CertPool) (pem : List Nat) : CertPool :=
  { certs := p.certs ++ [pem] }

/-- The `Proxy` field of `http.Transport`: `nil`, `http.ProxyFromEnvironment`,
or `http.ProxyURL(u)`. -/
inductive ProxySetting where
  | noProxy
  | fromEnvironment
  | url (u : neturl.URL)
deriving DecidableEq, Repr

/-- Model of `tls.Config` restricted to the fields the options set; defaults are Go
zero values. -/
structure TLSConfig where
  RootCAs : Option CertPool := none
  MinVersion : Nat := 0
  MaxVersion : Nat := 0
  InsecureSkipVerify : Bool := false
deriving DecidableEq, Repr

/-- Model of `http.Transport` restricted to the fields the options set. -/
structure Transport where
  Proxy : ProxySetting := .noProxy
  TLSClientConfig : Option TLSConfig := none
deriving DecidableEq, Repr

/-- Model of `http.Client` restricted to the fields the options set; `Timeout` is a
`time.Duration` in nanoseconds. -/
structure HTTPClient where
  Transport : Option Transport := none
  Timeout : Int := 0
deriving DecidableEq, Repr

/-! ## The alert value (`alert.go`, current generation with timestamps) -/

/-- Model of `Alert` of `alert.go`: nilable label/annotation maps and optional
`*time.Time` bounds. -/
structure Alert where
  Annotations : Option SMap := none
  Labels : Option SMap := none
  StartsAt : Option Int := none
  EndsAt : Option Int := none
deriving DecidableEq, Repr

/-- The functional alert options (`AlertOption` values the package exports):
`WithLabel`, `WithAnnotation`, `WithStartsAt`, `WithEndsAt`. -/
inductive AlertOption where
  | withLabel (key value : String)
  | withAnnot (key value : String)
  | withStartsAt (t : Int)
  | withEndsAt (t : Int)
deriving DecidableEq, Repr

/-- Application of one alert option, each transcribing its Go closure
(including the lazily-initialize-on-nil guard of WithLabel/WithAnnotation). -/
def applyAlertOption (o : AlertOption) (a : Alert) : Alert :=
  match o with
  | .withLabel k v =>
    let m := match a.Labels with | none => [] | some m => m
    { a with Labels := some (SMap.insert m k v) }
  | .withAnnot k v =>
    let m := match a.Annotations with | none => [] | some m => m
    { a with Annotations := some (SMap.insert m k v) }
  | .withStartsAt t => { a with StartsAt := some t }
  | .withEndsAt t => { a with EndsAt := some t }

/-- Model of `NewAlert(options...)`: initialized empty maps, then the options applied
in argument order. -/
def NewAlert (options : List AlertOption) : Alert :=
  options.foldl (fun al o => applyAlertOption o al)
    { Labels := some [], Annotations := some [], StartsAt := none, EndsAt := none }

/-! ## The options-based Alertmanager client

One state record carries the configuration fields of both generations of the
options-based manager found in the repository (`authHeader` in the root
`alertmanager.go` struct; `username`/`password` written by `WithBasicAuth` in
`manager_options.go`).  Every option and `Emit` reads and writes exactly the
fields its own source file does. -/

/-- Construction / emission errors of the options-based client. -/
inductive AMError where
  | endpointRequired
  | invalidEndpoint
  | endpointParseFailed (msg : String)
  | invalidProxyURL (msg : String)
  | nilHTTPClient
  | postFailed (endpoint msg : String)
deriving DecidableEq, Repr

/-- The `Alertmanager` client state (logger omitted; logging has no effect on
any modelled observable). -/
structure Alertmanager where
  client : HTTPClient
  endpoint : String := ""
  authHeader : String := ""
  username : String := ""
  password : String := ""
  labels : Option SMap := none
  annotations : Option SMap := none
deriving DecidableEq, Repr

/-- Model of `ManagerOption`. -/
abbrev ManagerOption := Alertmanager → Except AMError Alertmanager

/-- Model of `WithEndpoint`: reject empty input, parse, require scheme and host, strip
the path, append the fixed submission path. -/
def WithEndpoint (endpoint : String) : ManagerOption := fun a =>
  if endpoint = "" then .error .endpointRequired
  else
    match neturl.Parse endpoint with
    | .error e => .error (.endpointParseFailed e)
    | .ok u =>
      if u.Scheme = "" ∨ u.Host = "" then .error .invalidEndpoint
      else
        let u := if u.Path ≠ "" then { u with Path := "" } else u
        .ok { a with endpoint := neturl.URL.toStr u ++ "/api/v2/alerts" }

/-- Model of `WithBasicAuth` (manager_options.go): stores the credentials. -/
def WithBasicAuth (username password : String) : ManagerOption := fun a =>
  .ok { a with username := username, password := password }

/-- Model of `WithTimeout`: sets the HTTP client timeout. -/
def WithTimeout (timeout : Int) : ManagerOption := fun a =>
  .ok { a with client := { a.client with Timeout := timeout } }

/-- Model of `WithBaseLabel`: upsert into the base label map, initializing it when
nil. -/
def WithBaseLabel (key value : String) : ManagerOption := fun a =>
  let m := match a.labels with | none => [] | some m => m
  .ok { a with labels := some (SMap.insert m key value) }

/-- Model of `WithBaseAnnotation`: upsert into the base annotation map, initializing
it when nil. -/
def WithBaseAnnot (key value : String) : ManagerOption := fun a =>
  let m := match a.annotations with | none => [] | some m => m
  .ok { a with annotations := some (SMap.insert m key value) }

/-- Model of `WithCustomCA`: build the trust pool from the system pool (empty pool
when unavailable, passed in as `sysPool`) plus the PEM bytes, reuse or
create the transport, default the TLS config to MinVersion TLS 1.2 when
absent, then install the pool. -/
def mkCAPool (sysPool : Option CertPool) (caCert : List Nat) : CertPool :=
  let base := match sysPool with | some p => p | none => { certs := [] }
  if caCert.length > 0 then base.appendPEM caCert else base

def WithCustomCA (sysPool : Option CertPool) (caCert : List Nat) : ManagerOption := fun a =>
  let transport := match a.client.Transport with
    | some t => t
    | none => { Proxy := .fromEnvironment, TLSClientConfig := none }
  let tlsc := match transport.TLSClientConfig with
    | some c => c
    | none => { MinVersion := tls12 }
  let transport := { transport with
    TLSClientConfig := some { tlsc with RootCAs := some (mkCAPool sysPool caCert) } }
  .ok { a with client := { a.client with Transport := some transport } }

/-- Model of `WithInsecure`: same transport/TLS bootstrap as `WithCustomCA`, then set
the skip-verify flag. -/
def WithInsecure (insecureSkipVerify : Bool) : ManagerOption := fun a =>
  let transport := match a.client.Transport with
    | some t => t
    | none => { Proxy := .fromEnvironment, TLSClientConfig := none }
  let tlsc := match transport.TLSClientConfig with
    | some c => c
    | none => { MinVersion := tls12 }
  let transport := { transport with
    TLSClientConfig := some { tlsc with InsecureSkipVerify := insecureSkipVerify } }
  .ok { a with client := { a.client with Transport := some transport } }

/-- Model of `WithMinTLSVersion`: transport bootstrap with a zero-value `tls.Config`
fallback, then set the minimum version. -/
def WithMinTLSVersion (minVersion : TLSVersion) : ManagerOption := fun a =>
  let transport := match a.client.Transport with
    | some t => t
    | none => { Proxy := .fromEnvironment, TLSClientConfig := none }
  let tlsc := match transport.TLSClientConfig with
    | some c => c
    | none => {}
  let transport := { transport with
    TLSClientConfig := some { tlsc with MinVersion := minVersion % 65536 } }
  .ok { a with client := { a.client with Transport := some transport } }

/-- Model of `WithMaxTLSVersion`: transport bootstrap with a MinVersion-TLS1.2
fallback config, then set the maximum version. -/
def WithMaxTLSVersion (maxVersion : TLSVersion) : ManagerOption := fun a =>
  let transport := match a.client.Transport with
    | some t => t
    | none => { Proxy := .fromEnvironment, TLSClientConfig := none }
  let tlsc := match transport.TLSClientConfig with
    | some c => c
    | none => { MinVersion := tls12 }
  let transport := { transport with
    TLSClientConfig := some { tlsc with MaxVersion := maxVersion % 65536 } }
  .ok { a with client := { a.client with Transport := some transport } }

/-- Model of `WithProxyURL`: empty input is a no-op; otherwise parse (error on
failure), reuse or create a bare transport (`&http.Transport` with nil
Proxy), and install the static proxy resolver. -/
def WithProxyURL (proxyURL : String) : ManagerOption := fun a =>
  if proxyURL = "" then .ok a
  else
    match neturl.Parse proxyURL with
    | .error e => .error (.invalidProxyURL e)
    | .ok u =>
      let transport := match a.client.Transport with
        | some t => t
        | none => { Proxy := .noProxy, TLSClientConfig := none }
      .ok { a with client := { a.client with Transport := some { transport with Proxy := .url u } } }

/-- Sequential option application, as the loop in `NewAlertmanager`. -/
def applyOpts : List ManagerOption → Alertmanager → Except AMError Alertmanager
  | [], a => .ok a
  | o :: rest, a =>
    match o a with
    | .error e => .error e
    | .ok a' => applyOpts rest a'

/-- Model of `NewAlertmanager`: nil-client check, fresh state with initialized base
maps, then the options in order. -/
def NewAlertmanager (client : Option HTTPClient) (options : List ManagerOption) :
    Except AMError Alertmanager :=
  match client with
  | none => .error .nilHTTPClient
  | some c => applyOpts options { client := c, labels := some [], annotations := some [] }

/-! ## Emission (root `alertmanager.go`) -/

/-- Model of `basicAuthHeader` of the root `alertmanager.go`: the base64 of
`bytes.Join([user, pass], ":")`, prefixed with `Basic `. -/
def basicAuthHeader (username password : String) : String :=
  "Basic " ++ base64Encode (strBytes username ++ strBytes ":" ++ strBytes password)

/-- One merged alert of the `Emit` loop: fresh maps, the base maps copied in
first and the alert's maps copied on top, timestamps carried through. -/
def Alertmanager.mergeAlert (a : Alertmanager) (al : Alert) : Alert :=
  let mergedLabels := SMap.copy (SMap.copy [] a.labels) al.Labels
  let mergedAnnots := SMap.copy (SMap.copy [] a.annotations) al.Annotations
  { Labels := some mergedLabels, Annotations := some mergedAnnots,
    StartsAt := al.StartsAt, EndsAt := al.EndsAt }

/-- Outcome of the root `Emit`: the (unwritten) receiver state, the HTTP
requests attempted, and the returned response or error. -/
structure EmitOut where
  final : Alertmanager
  requests : List (HTTPRequest (List Alert))
  result : Except AMError HTTPResponse
deriving Repr

/-- The `finalAlerts` list the `Emit` loop builds: one merged alert per
non-nil entry, in input order (nil entries are skipped by the `continue`). -/
def Alertmanager.finalAlerts (a : Alertmanager) : List (Option Alert) → List Alert
  | [] => []
  | none :: rest => a.finalAlerts rest
  | some al :: rest => a.mergeAlert al :: a.finalAlerts rest

/-- Model of `Emit(alerts...)` of the root `alertmanager.go`: endpoint precondition,
nil-skipping merge loop, JSON-array payload, one POST with Content-Type and
the optional Authorization header, dispatched through `doReq` (the
`a.client.Do` round trip).  `json.Marshal` and `http.NewRequest` cannot fail
on this data and are not separate branches. -/
def Alertmanager.Emit (a : Alertmanager) (alerts : List (Option Alert))
    (doReq : HTTPRequest (List Alert) → Except String HTTPResponse) : EmitOut :=
  if a.endpoint = "" then { final := a, requests := [], result := .error .endpointRequired }
  else
    let req : HTTPRequest (List Alert) := {
      method := "POST"
      url := a.endpoint
      headers := [("Content-Type", "application/json")]
        ++ (if a.authHeader ≠ "" then [("Authorization", a.authHeader)] else [])
      body := a.finalAlerts alerts }
    { final := a
      requests := [req]
      result := match doReq req with
        | .error e => .error (.postFailed a.endpoint e)
        | .ok resp => .ok resp }

/-! ## Convenience constructor (`NewAlertmanagerWithArgs`) -/

/-- The flat `Args` configuration record. -/
structure Args where
  Enabled : Bool := false
  AlertmanagerURL : String := ""
  Username : String := ""
  Password : String := ""
  TLSCACertPath : String := ""
  TLSInsecureSkipVerify : Bool := false
  TLSMinVersion : String := ""
  TLSMaxVersion : String := ""
  ProxyURL : String := ""
  Timeout : Int := 0
deriving Repr

/-- Errors of `NewAlertmanagerWithArgs` (each wraps the corresponding
`fmt.Errorf`). -/
inductive ArgsError where
  | urlRequired
  | partialBasicAuth
  | readCAFailed (msg : String)
  | invalidTLSMin (msg : String)
  | invalidTLSMax (msg : String)
  | optionFailed (e : AMError)
deriving DecidableEq, Repr

/-- Model of `stringToSecureTLSVersion`: only TLS12/TLS13 allowed. -/
def stringToSecureTLSVersion (version : String) : Except String TLSVersion :=
  if version = "TLS10" then .error "TLS 1.0 is not allowed (minimum: TLS 1.2)"
  else if version = "TLS11" then .error "TLS 1.1 is not allowed (minimum: TLS 1.2)"
  else if version = "TLS12" then .ok tls12
  else if version = "TLS13" then .ok tls13
  else .error "must be one of: TLS12, TLS13"

/-- Two seconds (2 * time.Second), the default timeout, in nanoseconds. -/
def twoSecondsNs : Int := 2000000000

/-- Basic-auth stage of `NewAlertmanagerWithArgs`: both credentials, a
partial-credential error, or nothing. -/
def authStage (args : Args) : Except ArgsError (List ManagerOption) :=
  if args.Username ≠ "" ∧ args.Password ≠ "" then
    .ok [WithBasicAuth args.Username args.Password]
  else if args.Username ≠ "" ∨ args.Password ≠ "" then .error .partialBasicAuth
  else .ok []

/-- CA stage: read the certificate file when a path is configured
(`readFile` models `os.ReadFile`). -/
def caStage (readFile : String → Except String (List Nat)) (sysPool : Option CertPool)
    (args : Args) : Except ArgsError (List ManagerOption) :=
  if args.TLSCACertPath = "" then .ok []
  else
    match readFile args.TLSCACertPath with
    | .error e => .error (.readCAFailed e)
    | .ok caCert => .ok [WithCustomCA sysPool caCert]

/-- Minimum-TLS-version stage: skipped when unset, else the string must pass
`stringToSecureTLSVersion`. -/
def minStage (args : Args) : Except ArgsError (List ManagerOption) :=
  if args.TLSMinVersion = "" then .ok []
  else
    match stringToSecureTLSVersion args.TLSMinVersion with
    | .error e => .error (.invalidTLSMin e)
    | .ok v => .ok [WithMinTLSVersion v]

/-- Maximum-TLS-version stage, same validation as the minimum. -/
def maxStage (args : Args) : Except ArgsError (List ManagerOption) :=
  if args.TLSMaxVersion = "" then .ok []
  else
    match stringToSecureTLSVersion args.TLSMaxVersion with
    | .error e => .error (.invalidTLSMax e)
    | .ok v => .ok [WithMaxTLSVersion v]

/-- The fresh `&http.Client` the convenience constructor passes on. -/
def emptyHTTPClient : HTTPClient := { Transport := none, Timeout := 0 }

/-- Model of `NewAlertmanagerWithArgs`: disabled short-circuit, URL requirement,
default timeout, then the option list assembled in source order and applied
by `NewAlertmanager`. -/
def NewAlertmanagerWithArgs (readFile : String → Except String (List Nat))
    (sysPool : Option CertPool) (args : Args) : Except ArgsError (Option Alertmanager) :=
  if args.Enabled = false then .ok none
  else if args.AlertmanagerURL = "" then .error .urlRequired
  else
    let timeout := if args.Timeout = 0 then twoSecondsNs else args.Timeout
    match authStage args with
    | .error e => .error e
    | .ok auth =>
      match caStage readFile sysPool args with
      | .error e => .error e
      | .ok ca =>
        match minStage args with
        | .error e => .error e
        | .ok minv =>
          match maxStage args with
          | .error e => .error e
          | .ok maxv =>
            let opts := [WithEndpoint args.AlertmanagerURL, WithTimeout timeout]
              ++ auth ++ ca
              ++ (if args.TLSInsecureSkipVerify then [WithInsecure true] else [])
              ++ (if args.ProxyURL ≠ "" then [WithProxyURL args.ProxyURL] else [])
              ++ minv ++ maxv
            match NewAlertmanager (some emptyHTTPClient) opts with
            | .error e => .error (.optionFailed e)
            | .ok am => .ok (some am)

/-- Discriminator for `Except`, used to state results without naming the
payload. -/
def exceptIsOk : Except ε α → Bool
  | .ok _ => true
  | .error _ => false

/-! ## The `pkg/alertmanager` client (error-collapsing `Emit`) -/

namespace pkg

/-- The `pkg/alertmanager` alert: label/annotation maps only. -/
structure Alert where
  Annotations : Option SMap := none
  Labels : Option SMap := none
deriving DecidableEq, Repr

/-- The `pkg/alertmanager` client state (`Client`/logger omitted: the
embedded `*http.Client` round trip is the `doReq` parameter of `Emit`). -/
structure Alertmanager where
  endpoint : String := ""
  username : String := ""
  password : String := ""
  labels : Option SMap := none
  annotations : Option SMap := none
deriving DecidableEq, Repr

/-- Errors the pkg `Emit` returns after a request was attempted. -/
inductive EmitError where
  | emissionFailed
  | doFailed (msg : String)
deriving DecidableEq, Repr

/-- Model of `basicAuthHeader` of pkg: the ready-to-add header key/value pair. -/
def basicAuthHeaderKV (username password : String) : String × String :=
  ("Authorization", "Basic " ++ base64Encode (strBytes username ++ strBytes ":" ++ strBytes password))

/-- The merged alert of the pkg `Emit` loop (fresh maps, base first, alert
on top). -/
def Alertmanager.mergeAlert (a : Alertmanager) (al : Alert) : Alert :=
  { Labels := some (SMap.copy (SMap.copy [] a.labels) al.Labels),
    Annotations := some (SMap.copy (SMap.copy [] a.annotations) al.Annotations) }

/-- Outcome of the pkg `Emit`: requests attempted, whether the deferred
`resp.Body.Close()` ran on a non-nil response, and the returned error. -/
structure EmitOut where
  requests : List (HTTPRequest (List Alert))
  bodyClosed : Bool
  err : Option EmitError
deriving Repr

/-- The merged-alert list the pkg `Emit` loop builds, one merged alert per
non-nil entry, in input order. -/
def Alertmanager.finalAlerts (a : Alertmanager) : List (Option Alert) → List Alert
  | [] => []
  | none :: rest => a.finalAlerts rest
  | some al :: rest => a.mergeAlert al :: a.finalAlerts rest

/-- Model of `Emit(alerts...)` of `pkg/alertmanager/alertmanager.go`: empty-input
short-circuit, nil-skipping merge, one POST with Content-Type and the
Authorization header added only when both credentials are non-empty, then
status collapsing: non-200 becomes `ErrEmissionFailed`, 200 is success; the
deferred close runs whenever a response exists (`doReq` returning `.error`
is a nil-response transport failure). -/
def Alertmanager.Emit (a : Alertmanager) (alerts : List (Option Alert))
    (doReq : HTTPRequest (List Alert) → Except String HTTPResponse) : EmitOut :=
  if alerts.length = 0 then { requests := [], bodyClosed := false, err := none }
  else
    let req : HTTPRequest (List Alert) := {
      method := "POST"
      url := a.endpoint
      headers := [("Content-Type", "application/json")]
        ++ (if a.username ≠ "" ∧ a.password ≠ "" then [basicAuthHeaderKV a.username a.password]
            else [])
      body := a.finalAlerts alerts }
    { requests := [req]
      bodyClosed := match doReq req with
        | .error _ => false
        | .ok _ => true
      err := match doReq req with
        | .error e => some (.doFailed e)
        | .ok resp => if resp.status ≠ 200 then some .emissionFailed else none }

end pkg

/-! ## Heap model of the merge loop (for the no-mutation frame property)

Go maps are references into a mutable store.  `Store` makes that explicit:
a map value is an index (`Ref`) into a list of `SMap` contents, `alloc`
models `make(map[string]string)` and `copyInto` models `maps.Copy` writing
through its destination reference.  `HAlert` is an alert whose maps are
(possibly nil) references.  `mergeAlertH`/`emitMergeH` are the merge phase
of `Emit` (root and pkg alike) replayed against the store. -/

abbrev Ref := Nat

abbrev Store := List SMap

def Store.get (σ : Store) (r : Ref) : SMap := σ.getD r []

/-- Model of `make(map[string]string)` with initial contents `m`: a fresh reference. -/
def Store.alloc (σ : Store) (m : SMap) : Store × Ref := (σ ++ [m], σ.length)

/-- Model of `maps.Copy(dst, src)`: mutate the map behind `dst`; a nil `src` copies
nothing. -/
def Store.copyInto (σ : Store) (dst : Ref) (src : Option Ref) : Store :=
  match src with
  | none => σ
  | some s => σ.set dst (SMap.copy (Store.get σ dst) (some (Store.get σ s)))

/-- An alert whose maps live in the store. -/
structure HAlert where
  Labels : Option Ref := none
  Annotations : Option Ref := none
  StartsAt : Option Int := none
  EndsAt : Option Int := none
deriving DecidableEq, Repr

/-- The body of the merge loop: two fresh maps, base labels then alert
labels copied into the first, base annotations then alert annotations into
the second, timestamps read from the input alert. -/
def mergeAlertH (σ : Store) (baseL baseA : Option Ref) (al : HAlert) : Store × HAlert :=
  let p1 := Store.alloc σ []
  let p2 := Store.alloc p1.1 []
  let σ3 := Store.copyInto p2.1 p1.2 baseL
  let σ4 := Store.copyInto σ3 p1.2 al.Labels
  let σ5 := Store.copyInto σ4 p2.2 baseA
  let σ6 := Store.copyInto σ5 p2.2 al.Annotations
  (σ6, { Labels := some p1.2, Annotations := some p2.2,
         StartsAt := al.StartsAt, EndsAt := al.EndsAt })

/-- The whole merge loop of `Emit` over the input list, skipping nils. -/
def emitMergeH (σ : Store) (baseL baseA : Option Ref) (alerts : List (Option HAlert)) :
    Store × List HAlert :=
  alerts.foldl (fun acc oa =>
    match oa with
    | none => acc
    | some al =>
      let r := mergeAlertH acc.1 baseL baseA al
      (r.1, acc.2 ++ [r.2])) (σ, [])

/-! ## Helper lemmas -/

theorem Store.get_set_ne (σ : Store) (i r : Nat) (m : SMap) (h : r ≠ i) :
    Store.get (σ.set i m) r = Store.get σ r := by
  induction σ generalizing i r with
  | nil => simp [Store.get]
  | cons x rest ih =>
    cases i with
    | zero =>
      cases r with
      | zero => exact absurd rfl h
      | succ r => simp [Store.get, List.set]
    | succ i =>
      cases r with
      | zero => simp [Store.get, List.set]
      | succ r =>
        simp only [Store.get, List.set, List.getD_cons_succ]
        exact ih i r (fun hc => h (by simp [hc]))

theorem Store.get_append_left (σ : Store) (l : Store) (r : Nat) (h : r < σ.length) :
    Store.get (σ ++ l) r = Store.get σ r := by
  induction σ generalizing r with
  | nil => exact absurd h (by simp)
  | cons x rest ih =>
    cases r with
    | zero => simp [Store.get]
    | succ r =>
      simp only [Store.get, List.cons_append, List.getD_cons_succ]
      exact ih r (by simpa using h)

theorem Store.copyInto_length (σ : Store) (dst : Ref) (src : Option Ref) :
    (Store.copyInto σ dst src).length = σ.length := by
  cases src <;> simp [Store.copyInto]

theorem Store.copyInto_frame (σ : Store) (dst : Ref) (src : Option Ref) (r : Nat)
    (h : r ≠ dst) : Store.get (Store.copyInto σ dst src) r = Store.get σ r := by
  cases src with
  | none => rfl
  | some s => exact Store.get_set_ne _ _ _ _ h

theorem mergeAlertH_length (σ : Store) (baseL baseA : Option Ref) (al : HAlert) :
    (mergeAlertH σ baseL baseA al).1.length = σ.length + 2 := by
  simp [mergeAlertH, Store.copyInto_length, Store.alloc]

theorem mergeAlertH_frame (σ : Store) (baseL baseA : Option Ref) (al : HAlert) (r : Nat)
    (h : r < σ.length) :
    Store.get (mergeAlertH σ baseL baseA al).1 r = Store.get σ r := by
  have h1 : r ≠ σ.length := Nat.ne_of_lt h
  have h2 : r ≠ (σ ++ [([] : SMap)]).length := by
    simp only [List.length_append, List.length_cons, List.length_nil]
    omega
  simp only [mergeAlertH, Store.alloc]
  rw [Store.copyInto_frame _ _ _ _ h2, Store.copyInto_frame _ _ _ _ h2,
    Store.copyInto_frame _ _ _ _ h1, Store.copyInto_frame _ _ _ _ h1]
  rw [List.append_assoc]
  exact Store.get_append_left _ _ _ h

theorem emitMergeH_go_frame (baseL baseA : Option Ref) (alerts : List (Option HAlert))
    (σ : Store) (acc : List HAlert) (r : Nat) (h : r < σ.length) :
    Store.get (alerts.foldl (fun acc oa =>
      match oa with
      | none => acc
      | some al =>
        let m := mergeAlertH acc.1 baseL baseA al
        (m.1, acc.2 ++ [m.2])) (σ, acc)).1 r = Store.get σ r := by
  induction alerts generalizing σ acc with
  | nil => rfl
  | cons oa rest ih =>
    cases oa with
    | none => exact ih σ acc h
    | some al =>
      have hlt : r < (mergeAlertH σ baseL baseA al).1.length := by
        rw [mergeAlertH_length]; exact Nat.lt_succ_of_lt (Nat.lt_succ_of_lt h)
      calc Store.get _ r = Store.get (mergeAlertH σ baseL baseA al).1 r := ih _ _ hlt
        _ = Store.get σ r := mergeAlertH_frame σ baseL baseA al r h

theorem emitMergeH_frame (σ : Store) (baseL baseA : Option Ref)
    (alerts : List (Option HAlert)) (r : Nat) (h : r < σ.length) :
    Store.get (emitMergeH σ baseL baseA alerts).1 r = Store.get σ r :=
  emitMergeH_go_frame baseL baseA alerts σ [] r h

theorem parseAfterFragment_opaque_host (s : List Char) (u : neturl.URL)
    (h : neturl.parseAfterFragment s = .ok u) : u.Opaque = "" ∨ u.Host = "" := by
  simp only [neturl.parseAfterFragment] at h
  split at h
  · simp at h
  · split at h
    · simp at h
    · split at h
      · cases h; exact Or.inr rfl
      · split at h
        · simp at h
        · split at h
          · split at h
            · simp at h
            · cases h; exact Or.inl rfl
          · cases h; exact Or.inl rfl

theorem Parse_opaque_host (s : String) (u : neturl.URL)
    (h : neturl.Parse s = .ok u) : u.Opaque = "" ∨ u.Host = "" := by
  simp only [neturl.Parse] at h
  split at h
  · simp at h
  · split at h
    · cases h
      exact parseAfterFragment_opaque_host _ _ (by assumption)
    · cases h
      rcases parseAfterFragment_opaque_host _ _ (by assumption) with h' | h'
      · exact Or.inl h'
      · exact Or.inr h'

theorem toStr_stripped (u : neturl.URL) (hs : u.Scheme ≠ "") (hh : u.Host ≠ "")
    (ho : u.Opaque = "") (hu : u.User = none) (hq : u.RawQuery = "") (hf : u.Fragment = "") :
    neturl.URL.toStr { u with Path := "" } = u.Scheme ++ "://" ++ u.Host := by
  simp only [neturl.URL.toStr, hs, hh, ho, hu, hq, hf]
  simp [hh]
  rw [if_neg hs]
  apply String.ext
  simp

theorem orElseO_none (a : Option String) : orElseO a none = a := by
  cases a <;> rfl

theorem applyAlertOption_isSome (o : AlertOption) (al : Alert)
    (hl : al.Labels.isSome = true) (ha : al.Annotations.isSome = true) :
    ((applyAlertOption o al).Labels).isSome = true
      ∧ ((applyAlertOption o al).Annotations).isSome = true := by
  cases o <;> simp_all [applyAlertOption]

theorem foldl_alertOptions_isSome (opts : List AlertOption) (al : Alert)
    (hl : al.Labels.isSome = true) (ha : al.Annotations.isSome = true) :
    ((opts.foldl (fun al o => applyAlertOption o al) al).Labels).isSome = true
      ∧ ((opts.foldl (fun al o => applyAlertOption o al) al).Annotations).isSome = true := by
  induction opts generalizing al with
  | nil => exact ⟨hl, ha⟩
  | cons o rest ih =>
    have h := applyAlertOption_isSome o al hl ha
    exact ih _ h.1 h.2

/-- C9: for every sequence of construction options, the Alert returned by
`NewAlert` has non-null label and annotation maps; with zero options the maps
are empty but present, and no later option application can turn a present
map back into a null one. -/
theorem newAlert_maps_initialized :
    (∀ opts : List AlertOption, ((NewAlert opts).Labels).isSome = true
      ∧ ((NewAlert opts).Annotations).isSome = true)
    ∧ NewAlert []
        = { Labels := some [], Annotations := some [], StartsAt := none, EndsAt := none } :=
  ⟨fun opts => foldl_alertOptions_isSome opts _ rfl rfl, rfl⟩

/-- C3: merging base maps into a per-alert map is exactly first-of
(alert value, base value) on every key, for labels and annotations alike:
keys in both resolve to the alert's value, keys in only one side keep that
side's value, and keys in neither are absent from the merge. -/
theorem merge_alert_override (a : Alertmanager) (al : Alert) (B A Ban Aan : SMap)
    (hB : a.labels = some B) (hA : al.Labels = some A)
    (hBan : a.annotations = some Ban) (hAan : al.Annotations = some Aan) (k : String) :
    SMap.find (((Alertmanager.mergeAlert a al).Labels).getD []) k
        = orElseO (SMap.find A k) (SMap.find B k)
    ∧ SMap.find (((Alertmanager.mergeAlert a al).Annotations).getD []) k
        = orElseO (SMap.find Aan k) (SMap.find Ban k) := by
  simp [Alertmanager.mergeAlert, hB, hA, hBan, hAan, SMap.copy, SMap.find_append,
    SMap.find, orElseO_none]

/-- Concrete client used by the witnesses. -/
def amWitness : Alertmanager :=
  { client := emptyHTTPClient
    endpoint := "http://host:9093/api/v2/alerts"
    labels := some [("severity", "warning"), ("service", "svc")]
    annotations := some [("team", "platform")] }

/-- Concrete alert used by the witnesses. -/
def alWitness : Alert :=
  { Labels := some [("severity", "critical")]
    Annotations := some [("summary", "cpu high")]
    StartsAt := some 5
    EndsAt := none }

theorem merge_alert_override_witness :
    SMap.find (((Alertmanager.mergeAlert amWitness alWitness).Labels).getD []) "severity"
        = orElseO (SMap.find [("severity", "critical")] "severity")
            (SMap.find [("severity", "warning"), ("service", "svc")] "severity")
    ∧ SMap.find (((Alertmanager.mergeAlert amWitness alWitness).Annotations).getD []) "severity"
        = orElseO (SMap.find [("summary", "cpu high")] "severity")
            (SMap.find [("team", "platform")] "severity") :=
  merge_alert_override amWitness alWitness _ _ _ _ rfl rfl rfl rfl "severity"

/-- C5: with an empty endpoint, `Emit` returns `ErrEndpointRequired`
immediately: no HTTP request is attempted and the client state is returned
untouched. -/
theorem emit_endpoint_required (a : Alertmanager) (alerts : List (Option Alert))
    (doReq : HTTPRequest (List Alert) → Except String HTTPResponse) (h : a.endpoint = "") :
    Alertmanager.Emit a alerts doReq
      = { final := a, requests := [], result := .error .endpointRequired } := by
  simp [Alertmanager.Emit, h]

/-- Round trip that always reports HTTP 200, for witnesses. -/
def alwaysOk200 : HTTPRequest (List Alert) → Except String HTTPResponse :=
  fun _ => .ok { status := 200 }

theorem emit_endpoint_required_witness :
    Alertmanager.Emit { client := emptyHTTPClient } [some alWitness] alwaysOk200
      = { final := { client := emptyHTTPClient }, requests := [],
          result := .error .endpointRequired } :=
  emit_endpoint_required { client := emptyHTTPClient } [some alWitness] alwaysOk200 rfl

/-- C6: in the error-collapsing pkg `Emit`, once an HTTP round trip
completes, the deferred body close runs and the outcome is decided entirely
by the status code: 200 means success (nil error), anything else becomes
`ErrEmissionFailed`. -/
theorem emit_status_collapsing (a : pkg.Alertmanager) (alerts : List (Option pkg.Alert))
    (status : Nat) (h : alerts ≠ []) :
    (pkg.Alertmanager.Emit a alerts (fun _ => .ok { status := status })).bodyClosed = true
    ∧ ((pkg.Alertmanager.Emit a alerts (fun _ => .ok { status := status })).err = none
        ↔ status = 200)
    ∧ (status ≠ 200 →
        (pkg.Alertmanager.Emit a alerts (fun _ => .ok { status := status })).err
          = some .emissionFailed) := by
  have hlen : ¬ alerts.length = 0 := by simpa using h
  by_cases hs : status = 200 <;>
    simp [pkg.Alertmanager.Emit, hlen, hs]

theorem emit_status_collapsing_witness :
    ((pkg.Alertmanager.Emit {} [some {}] (fun _ => .ok { status := 500 })).bodyClosed = true
      ∧ ((pkg.Alertmanager.Emit {} [some {}] (fun _ => .ok { status := 500 })).err = none
          ↔ (500 : Nat) = 200)
      ∧ ((500 : Nat) ≠ 200 →
          (pkg.Alertmanager.Emit {} [some {}] (fun _ => .ok { status := 500 })).err
            = some .emissionFailed))
    ∧ ((pkg.Alertmanager.Emit {} [some {}] (fun _ => .ok { status := 200 })).bodyClosed = true
      ∧ ((pkg.Alertmanager.Emit {} [some {}] (fun _ => .ok { status := 200 })).err = none
          ↔ (200 : Nat) = 200)
      ∧ ((200 : Nat) ≠ 200 →
          (pkg.Alertmanager.Emit {} [some {}] (fun _ => .ok { status := 200 })).err
            = some .emissionFailed)) :=
  ⟨emit_status_collapsing {} [some {}] 500 (by simp),
   emit_status_collapsing {} [some {}] 200 (by simp)⟩

theorem Alertmanager.finalAlerts_eq (a : Alertmanager) (alerts : List (Option Alert)) :
    a.finalAlerts alerts = (alerts.filterMap id).map (Alertmanager.mergeAlert a) := by
  induction alerts with
  | nil => rfl
  | cons oa rest ih => cases oa <;> simp [Alertmanager.finalAlerts, ih]

theorem Alertmanager.finalAlerts_filter (a : Alertmanager) (alerts : List (Option Alert)) :
    a.finalAlerts (alerts.filter (fun oa => oa.isSome)) = a.finalAlerts alerts := by
  induction alerts with
  | nil => rfl
  | cons oa rest ih => cases oa <;> simp [List.filter, Alertmanager.finalAlerts, ih]

/-- C8: with an endpoint configured, `Emit` attempts exactly one request
whose payload is one merged alert per non-nil input entry (in input order),
and nil entries are skipped silently: filtering them away changes nothing
about the call. -/
theorem emit_skips_nil_alerts (a : Alertmanager) (alerts : List (Option Alert))
    (doReq : HTTPRequest (List Alert) → Except String HTTPResponse) (h : a.endpoint ≠ "") :
    ∃ req, (Alertmanager.Emit a alerts doReq).requests = [req]
      ∧ req.body = (alerts.filterMap id).map (Alertmanager.mergeAlert a)
      ∧ Alertmanager.Emit a alerts doReq
          = Alertmanager.Emit a (alerts.filter (fun oa => oa.isSome)) doReq := by
  refine ⟨{ method := "POST", url := a.endpoint,
            headers := [("Content-Type", "application/json")]
              ++ (if a.authHeader ≠ "" then [("Authorization", a.authHeader)] else []),
            body := a.finalAlerts alerts }, ?_, ?_, ?_⟩
  · simp [Alertmanager.Emit, h]
  · simp [Alertmanager.finalAlerts_eq]
  · simp [Alertmanager.Emit, h, Alertmanager.finalAlerts_filter]

theorem emit_skips_nil_alerts_witness :
    ∃ req, (Alertmanager.Emit amWitness [none, some alWitness, none] alwaysOk200).requests = [req]
      ∧ req.body = (([none, some alWitness, none] : List (Option Alert)).filterMap id).map
          (Alertmanager.mergeAlert amWitness)
      ∧ Alertmanager.Emit amWitness [none, some alWitness, none] alwaysOk200
          = Alertmanager.Emit amWitness
              (([none, some alWitness, none] : List (Option Alert)).filter (fun oa => oa.isSome))
              alwaysOk200 :=
  emit_skips_nil_alerts amWitness [none, some alWitness, none] alwaysOk200 (by decide)

theorem strBytes_foldr (l : List Char) (X : List Nat) :
    l.foldr (fun c acc => utf8Bytes c.toNat ++ acc) X
      = l.foldr (fun c acc => utf8Bytes c.toNat ++ acc) [] ++ X := by
  induction l with
  | nil => simp
  | cons c rest ih => simp [ih]

theorem strBytes_append (s t : String) : strBytes (s ++ t) = strBytes s ++ strBytes t := by
  simp only [strBytes, String.data_append, List.foldr_append]
  rw [strBytes_foldr]

/-- C1: every request the pkg `Emit` attempts carries
`Authorization: Basic base64(username:password)` exactly when both
credentials are non-empty, and carries no Authorization header at all when
either is empty. -/
theorem emit_basic_auth_header (a : pkg.Alertmanager) (alerts : List (Option pkg.Alert))
    (doReq : HTTPRequest (List pkg.Alert) → Except String HTTPResponse)
    (req : HTTPRequest (List pkg.Alert))
    (hreq : req ∈ (pkg.Alertmanager.Emit a alerts doReq).requests) :
    ((a.username ≠ "" ∧ a.password ≠ "") →
      ("Authorization", "Basic " ++ base64Encode (strBytes (a.username ++ ":" ++ a.password)))
        ∈ req.headers)
    ∧ ((a.username = "" ∨ a.password = "") → ∀ v, ("Authorization", v) ∉ req.headers) := by
  by_cases hlen : alerts.length = 0
  · simp [pkg.Alertmanager.Emit, hlen] at hreq
  · simp only [pkg.Alertmanager.Emit, if_neg hlen, List.mem_singleton] at hreq
    subst hreq
    constructor
    · intro hcred
      simp [if_pos hcred, pkg.basicAuthHeaderKV, strBytes_append]
    · intro hcred v
      have hnot : ¬ (a.username ≠ "" ∧ a.password ≠ "") := by
        rcases hcred with h1 | h1 <;> simp [h1]
      simp [if_neg hnot]

/-- Concrete pkg client with credentials, for the C1 witness. -/
def pkgAmAuth : pkg.Alertmanager :=
  { endpoint := "http://host:9093/api/v2/alerts", username := "bob", password := "frogs" }

/-- Round trip that always reports HTTP 200 to the pkg client. -/
def pkgAlwaysOk200 : HTTPRequest (List pkg.Alert) → Except String HTTPResponse :=
  fun _ => .ok { status := 200 }

/-- The one request the witness emission attempts. -/
def pkgAuthReq : HTTPRequest (List pkg.Alert) :=
  { method := "POST"
    url := "http://host:9093/api/v2/alerts"
    headers := [("Content-Type", "application/json"),
      ("Authorization", "Basic Ym9iOmZyb2dz")]
    body := [pkg.Alertmanager.mergeAlert pkgAmAuth {}] }

theorem emit_basic_auth_header_witness :
    ((pkgAmAuth.username ≠ "" ∧ pkgAmAuth.password ≠ "") →
      ("Authorization",
        "Basic " ++ base64Encode (strBytes (pkgAmAuth.username ++ ":" ++ pkgAmAuth.password)))
        ∈ pkgAuthReq.headers)
    ∧ ((pkgAmAuth.username = "" ∨ pkgAmAuth.password = "") →
        ∀ v, ("Authorization", v) ∉ pkgAuthReq.headers) :=
  emit_basic_auth_header pkgAmAuth [some {}] pkgAlwaysOk200 pkgAuthReq (by decide)

/-- C2: applying `WithCustomCA`, then `WithProxyURL` (with a non-empty,
parseable URL), then `WithMinTLSVersion` to one client leaves all three
settings simultaneously present on the final transport: the pool the CA
option installed, the static proxy resolver, and the minimum TLS version —
no later option clears an earlier unrelated setting. -/
theorem transport_options_additive (a : Alertmanager) (sysPool : Option CertPool)
    (caCert : List Nat) (purl : String) (u : neturl.URL) (v : TLSVersion)
    (hne : purl ≠ "") (hp : neturl.Parse purl = .ok u) :
    ∃ a' t tc,
      applyOpts [WithCustomCA sysPool caCert, WithProxyURL purl, WithMinTLSVersion v] a = .ok a'
      ∧ a'.client.Transport = some t
      ∧ t.TLSClientConfig = some tc
      ∧ tc.RootCAs = some (mkCAPool sysPool caCert)
      ∧ t.Proxy = .url u
      ∧ tc.MinVersion = v % 65536 := by
  cases htr : a.client.Transport with
  | none =>
    simp only [applyOpts, WithCustomCA, WithProxyURL, WithMinTLSVersion, htr, hne, hp,
      if_neg hne]
    exact ⟨_, _, _, rfl, rfl, rfl, rfl, rfl, rfl⟩
  | some t =>
    cases htc : t.TLSClientConfig with
    | none =>
      simp only [applyOpts, WithCustomCA, WithProxyURL, WithMinTLSVersion, htr, htc, hne, hp,
        if_neg hne]
      exact ⟨_, _, _, rfl, rfl, rfl, rfl, rfl, rfl⟩
    | some tc =>
      simp only [applyOpts, WithCustomCA, WithProxyURL, WithMinTLSVersion, htr, htc, hne, hp,
        if_neg hne]
      exact ⟨_, _, _, rfl, rfl, rfl, rfl, rfl, rfl⟩

/-- Initial client used by the C2 witness. -/
def amBare : Alertmanager := { client := emptyHTTPClient }

theorem transport_options_additive_witness :
    ∃ a' t tc,
      applyOpts [WithCustomCA (some { certs := [[1]] }) [2, 3],
        WithProxyURL "http://proxy:8080", WithMinTLSVersion tls13] amBare = .ok a'
      ∧ a'.client.Transport = some t
      ∧ t.TLSClientConfig = some tc
      ∧ tc.RootCAs = some (mkCAPool (some { certs := [[1]] }) [2, 3])
      ∧ t.Proxy = .url { Scheme := "http", Host := "proxy:8080" }
      ∧ tc.MinVersion = tls13 % 65536 :=
  transport_options_additive amBare (some { certs := [[1]] }) [2, 3] "http://proxy:8080"
    { Scheme := "http", Host := "proxy:8080" } tls13 (by decide) rfl

/-- C4: `WithEndpoint` on the empty string fails with the endpoint-required
error; on a string whose parse has no scheme or no host it fails with the
invalid-endpoint error; on a successfully parsed URL with scheme and host
(and no query/fragment/userinfo) the path is stripped and `/api/v2/alerts`
appended; in particular `http://host:9093/some/path` becomes
`http://host:9093/api/v2/alerts`. -/
theorem withEndpoint_validation :
    (∀ a : Alertmanager, WithEndpoint "" a = .error .endpointRequired)
    ∧ (∀ (a : Alertmanager) (s : String) (u : neturl.URL), s ≠ "" →
        neturl.Parse s = .ok u → (u.Scheme = "" ∨ u.Host = "") →
        WithEndpoint s a = .error .invalidEndpoint)
    ∧ (∀ (a : Alertmanager) (s : String) (u : neturl.URL), neturl.Parse s = .ok u →
        u.Scheme ≠ "" → u.Host ≠ "" → u.User = none → u.RawQuery = "" → u.Fragment = "" →
        WithEndpoint s a
          = .ok { a with endpoint := u.Scheme ++ "://" ++ u.Host ++ "/api/v2/alerts" })
    ∧ (∀ a : Alertmanager, WithEndpoint "http://host:9093/some/path" a
        = .ok { a with endpoint := "http://host:9093/api/v2/alerts" }) := by
  refine ⟨fun a => rfl, ?_, ?_, fun a => rfl⟩
  · intro a s u hs hp hsh
    simp [WithEndpoint, hs, hp, hsh]
  · intro a s u hp hsch hhost huser hq hf
    by_cases hs : s = ""
    · subst hs
      rw [show neturl.Parse "" = .ok ({} : neturl.URL) from rfl] at hp
      cases hp
      exact absurd rfl hsch
    · have ho : u.Opaque = "" := by
        rcases Parse_opaque_host s u hp with h | h
        · exact h
        · exact absurd h hhost
      have hstr : neturl.URL.toStr { u with Path := "" } = u.Scheme ++ "://" ++ u.Host :=
        toStr_stripped u hsch hhost ho huser hq hf
      simp only [WithEndpoint, if_neg hs, hp]
      rw [if_neg (not_or.mpr ⟨hsch, hhost⟩)]
      by_cases hP : u.Path = ""
      · have hself : { u with Path := "" } = u := by
          cases u
          simp_all
        rw [if_neg (by simpa using hP), ← hself, hstr]
      · rw [if_pos (by simpa using hP), hstr]

/-- Input strings exercising every branch of C4, as the witness. -/
theorem withEndpoint_validation_witness :
    WithEndpoint "" amBare = .error .endpointRequired
    ∧ WithEndpoint "alertmanager:9093" amBare = .error .invalidEndpoint
    ∧ WithEndpoint "http://" amBare = .error .invalidEndpoint
    ∧ WithEndpoint "https://secure.example.com:9093" amBare
        = .ok { amBare with endpoint := "https://secure.example.com:9093/api/v2/alerts" }
    ∧ WithEndpoint "http://host:9093/some/path" amBare
        = .ok { amBare with endpoint := "http://host:9093/api/v2/alerts" } :=
  ⟨withEndpoint_validation.1 amBare,
   withEndpoint_validation.2.1 amBare "alertmanager:9093"
     { Scheme := "alertmanager", Opaque := "9093" } (by decide) rfl (by simp),
   withEndpoint_validation.2.1 amBare "http://" { Scheme := "http" } (by decide) rfl (by simp),
   withEndpoint_validation.2.2.1 amBare "https://secure.example.com:9093"
     { Scheme := "https", Host := "secure.example.com:9093" } rfl (by decide) (by decide)
     rfl rfl rfl,
   withEndpoint_validation.2.2.2 amBare⟩

/-- A file reader that always fails, for configurations that never read. -/
def readFileNone : String → Except String (List Nat) := fun _ => .error "no file"

/-- Enabled configuration with a valid URL and no TLS min version set. -/
def argsMinUnset : Args := { Enabled := true, AlertmanagerURL := "http://host:9093" }

/-- C7 counterexample: with the enable flag set and a valid URL, the
min-TLS-version string "" differs from both "TLS12" and "TLS13", yet the
convenience constructor succeeds — an unset version string skips the check
instead of failing it, so "any string other than TLS12 or TLS13 returns a
configuration error" is false as stated. -/
theorem args_tls_empty_ok :
    argsMinUnset.Enabled = true
    ∧ argsMinUnset.TLSMinVersion ≠ "TLS12" ∧ argsMinUnset.TLSMinVersion ≠ "TLS13"
    ∧ exceptIsOk (NewAlertmanagerWithArgs readFileNone none argsMinUnset) = true :=
  ⟨rfl, by decide, by decide, rfl⟩

/-- C7 (amended): the convenience constructor returns no client and no error
when disabled; a configuration error when enabled with an empty URL; a
configuration error when exactly one credential is set; and a configuration
error whenever the min-TLS-version string is non-empty and is not TLS12 or
TLS13 (such as TLS10 or TLS11). -/
theorem args_validation :
    (∀ rf sp args, args.Enabled = false → NewAlertmanagerWithArgs rf sp args = .ok none)
    ∧ (∀ rf sp args, args.Enabled = true → args.AlertmanagerURL = "" →
        NewAlertmanagerWithArgs rf sp args = .error .urlRequired)
    ∧ (∀ rf sp args, args.Enabled = true → args.AlertmanagerURL ≠ "" →
        ((args.Username ≠ "" ∧ args.Password = "") ∨ (args.Username = "" ∧ args.Password ≠ "")) →
        NewAlertmanagerWithArgs rf sp args = .error .partialBasicAuth)
    ∧ (∀ rf sp args, args.Enabled = true → args.TLSMinVersion ≠ "" →
        args.TLSMinVersion ≠ "TLS12" → args.TLSMinVersion ≠ "TLS13" →
        ∃ e, NewAlertmanagerWithArgs rf sp args = .error e) := by
  refine ⟨?_, ?_, ?_, ?_⟩
  · intro rf sp args hen
    simp [NewAlertmanagerWithArgs, hen]
  · intro rf sp args hen hurl
    simp [NewAlertmanagerWithArgs, hen, hurl]
  · intro rf sp args hen hurl hcred
    have hauth : authStage args = .error .partialBasicAuth := by
      rcases hcred with ⟨h1, h2⟩ | ⟨h1, h2⟩ <;> simp [authStage, h1, h2]
    simp [NewAlertmanagerWithArgs, hen, hurl, hauth]
  · intro rf sp args hen hne h12 h13
    by_cases hurl : args.AlertmanagerURL = ""
    · exact ⟨.urlRequired, by simp [NewAlertmanagerWithArgs, hen, hurl]⟩
    · have hmin : ∃ m, minStage args = .error (.invalidTLSMin m) := by
        simp only [minStage, if_neg hne]
        by_cases h10 : args.TLSMinVersion = "TLS10"
        · exact ⟨"TLS 1.0 is not allowed (minimum: TLS 1.2)",
            by simp [stringToSecureTLSVersion, h10]⟩
        · by_cases h11 : args.TLSMinVersion = "TLS11"
          · exact ⟨"TLS 1.1 is not allowed (minimum: TLS 1.2)",
              by simp [stringToSecureTLSVersion, h10, h11]⟩
          · exact ⟨"must be one of: TLS12, TLS13",
              by simp [stringToSecureTLSVersion, h10, h11, h12, h13]⟩
      obtain ⟨m, hm⟩ := hmin
      cases hauth : authStage args with
      | error e => exact ⟨e, by simp [NewAlertmanagerWithArgs, hen, hurl, hauth]⟩
      | ok opts =>
        cases hca : caStage rf sp args with
        | error e => exact ⟨e, by simp [NewAlertmanagerWithArgs, hen, hurl, hauth, hca]⟩
        | ok ca =>
          exact ⟨.invalidTLSMin m, by simp [NewAlertmanagerWithArgs, hen, hurl, hauth, hca, hm]⟩

/-- Enabled configuration carrying only a username. -/
def argsPartialAuth : Args :=
  { Enabled := true, AlertmanagerURL := "http://host:9093", Username := "user" }

/-- Enabled configuration asking for TLS 1.0. -/
def argsTLS10 : Args :=
  { Enabled := true, AlertmanagerURL := "http://host:9093", TLSMinVersion := "TLS10" }

theorem args_validation_witness :
    NewAlertmanagerWithArgs readFileNone none { Enabled := false } = .ok none
    ∧ NewAlertmanagerWithArgs readFileNone none { Enabled := true } = .error .urlRequired
    ∧ NewAlertmanagerWithArgs readFileNone none argsPartialAuth = .error .partialBasicAuth
    ∧ ∃ e, NewAlertmanagerWithArgs readFileNone none argsTLS10 = .error e :=
  ⟨args_validation.1 readFileNone none { Enabled := false } rfl,
   args_validation.2.1 readFileNone none { Enabled := true } rfl rfl,
   args_validation.2.2.1 readFileNone none argsPartialAuth rfl (by decide)
     (Or.inl ⟨by decide, rfl⟩),
   args_validation.2.2.2 readFileNone none argsTLS10 rfl (by decide) (by decide) (by decide)⟩

/-- C10: the merge phase of `Emit` writes only into freshly allocated maps:
every map that existed before the call — in particular the caller's alert
label and annotation maps — has unchanged contents afterwards, and the
merged alert carries the caller's startsAt/endsAt values without altering
the input alert. -/
theorem emit_merge_frame (σ : Store) (baseL baseA : Option Ref)
    (alerts : List (Option HAlert)) (al : HAlert) (lr ar : Ref)
    (_hmem : some al ∈ alerts) (_hl : al.Labels = some lr) (_ha : al.Annotations = some ar)
    (hlr : lr < σ.length) (har : ar < σ.length) :
    Store.get (emitMergeH σ baseL baseA alerts).1 lr = Store.get σ lr
    ∧ Store.get (emitMergeH σ baseL baseA alerts).1 ar = Store.get σ ar
    ∧ (mergeAlertH σ baseL baseA al).2.StartsAt = al.StartsAt
    ∧ (mergeAlertH σ baseL baseA al).2.EndsAt = al.EndsAt :=
  ⟨emitMergeH_frame σ baseL baseA alerts lr hlr,
   emitMergeH_frame σ baseL baseA alerts ar har, rfl, rfl⟩

/-- Two-map store and an alert pointing at both, for the C10 witness. -/
def storeW : Store := [[("k", "v")], [("a", "b")]]

def halW : HAlert := { Labels := some 0, Annotations := some 1, StartsAt := some 7 }

theorem emit_merge_frame_witness :
    Store.get (emitMergeH storeW none none [some halW]).1 0 = Store.get storeW 0
    ∧ Store.get (emitMergeH storeW none none [some halW]).1 1 = Store.get storeW 1
    ∧ (mergeAlertH storeW none none halW).2.StartsAt = halW.StartsAt
    ∧ (mergeAlertH storeW none none halW).2.EndsAt = halW.EndsAt :=
  emit_merge_frame storeW none none [some halW] halW 0 1 (by simp) rfl rfl
    (by decide) (by decide)
